import Mathlib

/-!
Verification development for a persistence-backed TTL cache (futures-cache).

The cache stores CBOR-encoded `StoredEntry` values (an expiry timestamp plus a
payload) in an embedded ordered key-value store, keyed by the canonical CBOR
encoding of a `(namespace, logical key)` pair.  We shallowly embed the library:

* timestamps (`chrono::DateTime<Utc>`) and durations are modelled as integers;
  `Utc::now()` becomes an explicit `now : Time` argument at each call site that
  reads the clock in the source;
* the CBOR codec is an external collaborator; we model the bytes stored as a
  value by how they decode: a well-formed encoded `StoredEntry`, bytes whose
  `expires_at` header decodes but whose payload does not (for example a type
  mismatch on `get`), or bytes that fail even the header decode;
* the RocksDB handle becomes an explicit association-list store threaded
  through each operation; `db.get` / `db.put` / `db.delete` / iteration are the
  assumed-atomic primitives of the store interface.
-/

/-- Timestamps (`chrono::DateTime<Utc>`), modelled as integers. -/
abbrev Time := Int

/-- A complete stored entry with a type (`StoredEntry<T>` in the source). -/
structure StoredEntry (α : Type) where
  expires_at : Time
  value : α
deriving Repr, DecidableEq

/-- Test if entry is expired (`StoredEntry::is_expired`): `self.expires_at < now`. -/
def StoredEntry.is_expired (e : StoredEntry α) (now : Time) : Bool :=
  e.expires_at < now

/-- Used to only deserialize part of the stored entry (`PartialStoredEntry`). -/
structure PartialStoredEntry where
  expires_at : Time
deriving Repr, DecidableEq

/-- Test if entry is expired (`PartialStoredEntry::is_expired`): `self.expires_at < now`. -/
def PartialStoredEntry.is_expired (e : PartialStoredEntry) (now : Time) : Bool :=
  e.expires_at < now

/-- Convert into a stored entry (`PartialStoredEntry::into_stored_entry`). -/
def PartialStoredEntry.into_stored_entry (e : PartialStoredEntry) : StoredEntry Unit :=
  { expires_at := e.expires_at, value := () }

/-- The canonical CBOR encoding of the two-slot key structure
`Key(ns, key)` built by `Cache::key_with_ns`.  The codec is deterministic and
injective on the pair (the source canonicalizes the CBOR value before
serializing), so we model the encoded bytes by the pair itself. -/
structure EncKey (κ : Type) where
  ns : Option String
  key : κ
deriving Repr, DecidableEq

/-- Bytes stored as a value in the db, classified by how the CBOR codec decodes
them: `entry e` stands for `cbor::to_vec(&e)` (both the full and the
header-only decode succeed), `badPayload t j` for bytes whose `expires_at`
header decodes to `t` but whose payload fails the typed full decode, and
`malformed j` for bytes that fail even the header decode. -/
inductive StoredBytes (α : Type) where
  | entry (e : StoredEntry α)
  | badPayload (expires_at : Time) (junk : Nat)
  | malformed (junk : Nat)
deriving Repr, DecidableEq

/-- Header-only decode, `cbor::from_slice::<PartialStoredEntry>`. -/
def decodePartial : StoredBytes α → Option PartialStoredEntry
  | .entry e => some { expires_at := e.expires_at }
  | .badPayload t _ => some { expires_at := t }
  | .malformed _ => none

/-- Typed full decode, `cbor::from_slice::<StoredEntry<T>>`. -/
def decodeFull : StoredBytes α → Option (StoredEntry α)
  | .entry e => some e
  | _ => none

/-- The embedded key-value store: encoded key to stored value bytes. -/
abbrev Store (κ α : Type) := List (EncKey κ × StoredBytes α)

/-- Store read, `db.get(key)`. -/
def dbGet [DecidableEq κ] (s : Store κ α) (k : EncKey κ) : Option (StoredBytes α) :=
  (s.find? fun p => decide (p.1 = k)).map (·.2)

/-- Store removal, `db.delete(key)`. -/
def dbDelete [DecidableEq κ] (s : Store κ α) (k : EncKey κ) : Store κ α :=
  s.filter fun p => decide (p.1 ≠ k)

/-- Store write, `db.put(key, value)`: overwrites any entry at `key`. -/
def dbPut [DecidableEq κ] (s : Store κ α) (k : EncKey κ) (v : StoredBytes α) : Store κ α :=
  (k, v) :: dbDelete s k

/-- The error type of the cache; the payloads of the underlying CBOR, JSON and
RocksDB errors are opaque to the cache and modelled by a tag. -/
inductive Error where
  | Cbor (tag : Nat)
  | Json (tag : Nat)
  | Rocksdb (tag : Nat)
deriving Repr, DecidableEq

/-- Represents the state of an entry (`State<T>`). -/
inductive State (α : Type) where
  | Fresh (e : StoredEntry α)
  | Expired (e : StoredEntry α)
  | Missing
deriving Repr, DecidableEq

/-- Entry with a reference to the underlying cache (`EntryRef`): the borrowed
cache handle is implicit here because the store is threaded explicitly. -/
structure EntryRef (κ α : Type) where
  key : EncKey κ
  state : State α
deriving Repr, DecidableEq

/-- Create a fresh entry (`EntryRef::fresh`). -/
def EntryRef.fresh (key : EncKey κ) (stored : StoredEntry α) : EntryRef κ α :=
  { key := key, state := State.Fresh stored }

/-- Create an expired entry (`EntryRef::expired`). -/
def EntryRef.expired (key : EncKey κ) (stored : StoredEntry α) : EntryRef κ α :=
  { key := key, state := State.Expired stored }

/-- Create a missing entry (`EntryRef::missing`). -/
def EntryRef.missing (key : EncKey κ) : EntryRef κ α :=
  { key := key, state := State.Missing }

/-- Get as an option, regardless if it is expired or not (`EntryRef::get`). -/
def EntryRef.get (er : EntryRef κ α) : Option α :=
  match er.state with
  | State.Fresh e => some e.value
  | State.Expired e => some e.value
  | State.Missing => none

/-- Get the value, but delete if it is expired (`EntryRef::delete_if_expired`).
The `db` borrowed by the entry is passed explicitly; the result pairs the
returned `Option` with the store after the call.  The RocksDB delete is assumed
to succeed, so the `Result` layer of the source is dropped. -/
def EntryRef.delete_if_expired [DecidableEq κ] (s : Store κ α) (er : EntryRef κ α) :
    Option α × Store κ α :=
  match er.state with
  | State.Fresh e => (some e.value, s)
  | State.Expired _ => (none, dbDelete s er.key)
  | State.Missing => (none, s)

/-- Primary cache abstraction (`Cache`): the namespace slot.  The shared
`Arc<rocksdb::DB>` handle is the explicitly threaded `Store`. -/
structure Cache where
  ns : Option String
deriving Repr, DecidableEq

/-- Helper to serialize the key with a specific namespace
(`Cache::key_with_ns`): the canonical encoding of the two-slot `Key(ns, key)`. -/
def Cache.key_with_ns (_c : Cache) (ns : Option String) (key : κ) : EncKey κ :=
  { ns := ns, key := key }

/-- Helper to serialize the key with the default namespace (`Cache::key`). -/
def Cache.key (c : Cache) (key : κ) : EncKey κ :=
  c.key_with_ns c.ns key

/-- Create a namespaced cache (`Cache::namespaced`): shares the store handle,
only the namespace slot changes. -/
def Cache.namespaced (c : Cache) (ns : String) : Cache :=
  { c with ns := some ns }

/-- Delete the given key from the specified namespace (`Cache::delete_with_ns`). -/
def Cache.delete_with_ns [DecidableEq κ] (c : Cache) (s : Store κ α) (ns : Option String)
    (key : κ) : Store κ α :=
  dbDelete s (c.key_with_ns ns key)

/-- Insert a value into the cache under an already-encoded key
(`Cache::inner_insert`): stores `StoredEntry { expires_at := now + age, value }`.
Encoding an in-memory `StoredEntry` cannot fail in this model, so the
`Result` layer of the source is dropped. -/
def Cache.inner_insert [DecidableEq κ] (s : Store κ α) (key : EncKey κ) (age : Int)
    (value : α) (now : Time) : Store κ α :=
  dbPut s key (StoredBytes.entry { expires_at := now + age, value := value })

/-- Insert a value into the cache (`Cache::insert`). -/
def Cache.insert [DecidableEq κ] (c : Cache) (s : Store κ α) (key : κ) (age : Int)
    (value : α) (now : Time) : Store κ α :=
  Cache.inner_insert s (c.key key) age value now

/-- Load an entry from the cache using only the header decode
(`Cache::inner_test`): absent or undecodable resolves to `Missing`, a decoded
header resolves to `Expired` or `Fresh` by `is_expired(now)`. -/
def Cache.inner_test [DecidableEq κ] (s : Store κ α) (key : EncKey κ) (now : Time) :
    EntryRef κ Unit :=
  match dbGet s key with
  | none => EntryRef.missing key
  | some value =>
    match decodePartial value with
    | none => EntryRef.missing key
    | some storage =>
      if storage.is_expired now then EntryRef.expired key storage.into_stored_entry
      else EntryRef.fresh key storage.into_stored_entry

/-- Test an entry from the cache (`Cache::test`). -/
def Cache.test [DecidableEq κ] (c : Cache) (s : Store κ α) (key : κ) (now : Time) :
    EntryRef κ Unit :=
  Cache.inner_test s (c.key key) now

/-- Load an entry from the cache with a typed full decode (`Cache::inner_get`):
absent or undecodable resolves to `Missing`, a decoded entry resolves to
`Expired` or `Fresh` by `is_expired(now)`. -/
def Cache.inner_get [DecidableEq κ] (s : Store κ α) (key : EncKey κ) (now : Time) :
    EntryRef κ α :=
  match dbGet s key with
  | none => EntryRef.missing key
  | some value =>
    match decodeFull value with
    | none => EntryRef.missing key
    | some storage =>
      if storage.is_expired now then EntryRef.expired key storage
      else EntryRef.fresh key storage

/-- Load an entry from the cache (`Cache::get`). -/
def Cache.get [DecidableEq κ] (c : Cache) (s : Store κ α) (key : κ) (now : Time) :
    EntryRef κ α :=
  Cache.inner_get s (c.key key) now

/-- Clean up stale entries (`Cache::cleanup`): full scan; an entry whose header
fails to decode is deleted, a decoded entry is deleted when expired, everything
else is kept untouched. -/
def Cache.cleanup [DecidableEq κ] (s : Store κ α) (now : Time) : Store κ α :=
  s.filter fun p =>
    match decodePartial p.2 with
    | none => false
    | some e => !(e.is_expired now)

/-- Wrap the result of the given future to load and store from cache
(`Cache::wrap`).  The awaited future is modelled by its outcome `fut`; the two
clock reads (inside `self.get` and inside `inner_insert` after the await) are
the explicit `now₁` and `now₂`.  Returns the call's result together with the
store after the call. -/
def Cache.wrap [DecidableEq κ] (c : Cache) (s : Store κ α) (key : κ) (age : Int)
    (fut : Except Error α) (now₁ now₂ : Time) : Except Error α × Store κ α :=
  match (c.get s key now₁).state with
  | State.Fresh e => (Except.ok e.value, s)
  | State.Expired _ | State.Missing =>
    match fut with
    | Except.error e => (Except.error e, s)
    | Except.ok output =>
      (Except.ok output, Cache.inner_insert s (c.key key) age output now₂)

/-- State-passing form of `Cache::inner_test`, returning the db alongside the
result: the body performs a single `db.get` and no `put` or `delete`, so every
branch hands back the store it received. -/
def Cache.inner_testS [DecidableEq κ] (s : Store κ α) (key : EncKey κ) (now : Time) :
    EntryRef κ Unit × Store κ α :=
  match dbGet s key with
  | none => (EntryRef.missing key, s)
  | some value =>
    match decodePartial value with
    | none => (EntryRef.missing key, s)
    | some storage =>
      if storage.is_expired now then (EntryRef.expired key storage.into_stored_entry, s)
      else (EntryRef.fresh key storage.into_stored_entry, s)

/-- State-passing form of `Cache::inner_get`, returning the db alongside the
result: the body performs a single `db.get` and no `put` or `delete`. -/
def Cache.inner_getS [DecidableEq κ] (s : Store κ α) (key : EncKey κ) (now : Time) :
    EntryRef κ α × Store κ α :=
  match dbGet s key with
  | none => (EntryRef.missing key, s)
  | some value =>
    match decodeFull value with
    | none => (EntryRef.missing key, s)
    | some storage =>
      if storage.is_expired now then (EntryRef.expired key storage, s)
      else (EntryRef.fresh key storage, s)

/-! ### Store lemmas -/

/-- Reading back the key just written returns the written bytes. -/
theorem dbGet_dbPut_self [DecidableEq κ] (s : Store κ α) (k : EncKey κ) (v : StoredBytes α) :
    dbGet (dbPut s k v) k = some v := by
  simp [dbGet, dbPut, List.find?]

/-- Searching for one key is unaffected by filtering out a different key. -/
theorem find?_key_filter_ne [DecidableEq κ] (s : Store κ α) (k k' : EncKey κ) (h : k' ≠ k) :
    ((s.filter fun p => decide (p.1 ≠ k)).find? fun p => decide (p.1 = k')) =
      (s.find? fun p => decide (p.1 = k')) := by
  induction s with
  | nil => rfl
  | cons a s ih =>
    by_cases hak : a.1 = k
    · have ha' : ¬ a.1 = k' := fun hh => h (hh ▸ hak)
      rw [List.filter_cons_of_neg (by simp [hak]), ih,
        List.find?_cons_of_neg _ (by simpa using ha')]
    · rw [List.filter_cons_of_pos (by simp [hak])]
      by_cases ha' : a.1 = k'
      · rw [List.find?_cons_of_pos _ (by simpa using ha'), List.find?_cons_of_pos _ (by simpa using ha')]
      · rw [List.find?_cons_of_neg _ (by simpa using ha'), List.find?_cons_of_neg _ (by simpa using ha'), ih]

/-- A write at one key does not change reads at a different key. -/
theorem dbGet_dbPut_other [DecidableEq κ] (s : Store κ α) (k k' : EncKey κ)
    (v : StoredBytes α) (h : k' ≠ k) : dbGet (dbPut s k v) k' = dbGet s k' := by
  unfold dbGet dbPut dbDelete
  rw [List.find?_cons_of_neg _ (by simp; exact fun hh => h hh.symm),
    find?_key_filter_ne s k k' h]

/-- Reading a just-deleted key returns nothing. -/
theorem dbGet_dbDelete_self [DecidableEq κ] (s : Store κ α) (k : EncKey κ) :
    dbGet (dbDelete s k) k = none := by
  have hnone : ((s.filter fun p => decide (p.1 ≠ k)).find? fun p => decide (p.1 = k)) = none := by
    rw [List.find?_eq_none]
    intro x hx
    have hxk := (List.mem_filter.mp hx).2
    simp at hxk ⊢
    exact hxk
  unfold dbGet dbDelete
  rw [hnone]
  rfl

/-- A delete at one key does not change reads at a different key. -/
theorem dbGet_dbDelete_other [DecidableEq κ] (s : Store κ α) (k k' : EncKey κ)
    (h : k' ≠ k) : dbGet (dbDelete s k) k' = dbGet s k' := by
  unfold dbGet dbDelete
  rw [find?_key_filter_ne s k k' h]

/-! ### Interleaving model of concurrent `wrap` calls

Two callers run `wrap` on the same key against a shared store.  Each caller is
the source's `wrap` body cut at its suspension point: step one resolves the key
with `self.get` and either finishes with the fresh value or records a miss;
step two (only after a miss) awaits the caller-supplied computation and then
synchronously runs `inner_insert` and finishes.  Per the specification's
concurrency scenario the computation increments a shared counter and returns
the counter's value.  A schedule is a list of task identifiers; each entry runs
one atomic step of that task. -/

/-- Control state of one `wrap` caller: before the `self.get`, after observing
a miss, or finished with its return value and whether it ran the computation. -/
inductive TaskState where
  | start
  | missed
  | finished (ret : Nat) (ranCompute : Bool)
deriving Repr, DecidableEq

/-- Shared system state: the store, the computation's shared counter, and the
two callers. -/
structure WrapSys (κ : Type) where
  db : Store κ Nat
  counter : Nat
  t0 : TaskState
  t1 : TaskState
deriving Repr, DecidableEq

/-- Select a task by identifier. -/
def WrapSys.task (sys : WrapSys κ) (i : Bool) : TaskState :=
  if i then sys.t1 else sys.t0

/-- Replace a task's state. -/
def WrapSys.setTask (sys : WrapSys κ) (i : Bool) (t : TaskState) : WrapSys κ :=
  if i then { sys with t1 := t } else { sys with t0 := t }

/-- Run one atomic step of task `i` of `wrap(k, age, compute)`: the `self.get`
resolution (finish on `Fresh`, otherwise record the miss), or, after a miss,
the awaited computation (increment the shared counter, take its value) followed
by the synchronous `inner_insert` of the result. -/
def wrapStep [DecidableEq κ] (c : Cache) (k : κ) (age : Int) (now : Time)
    (sys : WrapSys κ) (i : Bool) : WrapSys κ :=
  match sys.task i with
  | TaskState.start =>
    match (c.get sys.db k now).state with
    | State.Fresh e => sys.setTask i (TaskState.finished e.value false)
    | State.Expired _ => sys.setTask i TaskState.missed
    | State.Missing => sys.setTask i TaskState.missed
  | TaskState.missed =>
    let cnt := sys.counter + 1
    { sys.setTask i (TaskState.finished cnt true) with
        db := Cache.inner_insert sys.db (c.key k) age cnt now,
        counter := cnt }
  | TaskState.finished _ _ => sys

/-- Run a schedule of interleaved task steps. -/
def wrapRun [DecidableEq κ] (c : Cache) (k : κ) (age : Int) (now : Time)
    (sched : List Bool) (sys : WrapSys κ) : WrapSys κ :=
  sched.foldl (wrapStep c k age now) sys

/-- How many completed callers ran the computation themselves. -/
def computeFlag : TaskState → Nat
  | TaskState.finished _ true => 1
  | _ => 0

/-- Total number of computation runs recorded in the system. -/
def computeRuns (sys : WrapSys κ) : Nat :=
  computeFlag sys.t0 + computeFlag sys.t1

/-- One interleaved step preserves the count: the shared counter always equals
the number of finished callers that ran the computation. -/
theorem wrapStep_preserves_runs [DecidableEq κ] (c : Cache) (k : κ) (age : Int)
    (now : Time) (sys : WrapSys κ) (i : Bool)
    (h : sys.counter = computeRuns sys) :
    (wrapStep c k age now sys i).counter = computeRuns (wrapStep c k age now sys i) := by
  cases i with
  | false =>
    cases h0 : sys.t0 with
    | start =>
      unfold wrapStep
      rw [show sys.task false = TaskState.start from by simp [WrapSys.task, h0]]
      cases hst : (Cache.get c sys.db k now).state <;>
        simpa [WrapSys.setTask, computeRuns, computeFlag, h0] using h
    | missed =>
      unfold wrapStep
      rw [show sys.task false = TaskState.missed from by simp [WrapSys.task, h0]]
      simp [WrapSys.setTask, computeRuns, computeFlag, h0] at h ⊢
      omega
    | finished r b =>
      unfold wrapStep
      rw [show sys.task false = TaskState.finished r b from by simp [WrapSys.task, h0]]
      exact h
  | true =>
    cases h1 : sys.t1 with
    | start =>
      unfold wrapStep
      rw [show sys.task true = TaskState.start from by simp [WrapSys.task, h1]]
      cases hst : (Cache.get c sys.db k now).state <;>
        simpa [WrapSys.setTask, computeRuns, computeFlag, h1] using h
    | missed =>
      unfold wrapStep
      rw [show sys.task true = TaskState.missed from by simp [WrapSys.task, h1]]
      simp [WrapSys.setTask, computeRuns, computeFlag, h1] at h ⊢
      omega
    | finished r b =>
      unfold wrapStep
      rw [show sys.task true = TaskState.finished r b from by simp [WrapSys.task, h1]]
      exact h

/-- A whole schedule preserves the count. -/
theorem wrapRun_preserves_runs [DecidableEq κ] (c : Cache) (k : κ) (age : Int)
    (now : Time) (sched : List Bool) (sys : WrapSys κ)
    (h : sys.counter = computeRuns sys) :
    (wrapRun c k age now sched sys).counter = computeRuns (wrapRun c k age now sched sys) := by
  induction sched generalizing sys with
  | nil => exact h
  | cons i sched ih =>
    exact ih (wrapStep c k age now sys i) (wrapStep_preserves_runs c k age now sys i h)

/-! ### Claim theorems -/

/-- Claim C2, counterexample: the claim says an entry with `expires_at <= now`
resolves to `Expired`, but at `expires_at = now` (here both `0`) the source's
`is_expired` check `expires_at < now` is false, so `test` resolves the entry to
`Fresh`, not `Expired`. -/
theorem test_expired_at_boundary_counterexample :
    ((0 : Time) ≤ 0) ∧
    ((Cache.mk none).test
        ([({ ns := none, key := "x" },
            StoredBytes.entry { expires_at := 0, value := (42 : Nat) })] : Store String Nat)
        "x" 0).state = State.Fresh { expires_at := 0, value := () } := by
  decide

/-- Claim C2 (amended): for a present, decodable stored entry, `test` and `get`
resolve to `Expired` exactly when `expires_at < now` and to `Fresh` exactly
when `expires_at >= now` (the boundary `expires_at = now` is `Fresh`). -/
theorem test_get_expiry_boundary [DecidableEq κ] (c : Cache) (s : Store κ α) (k : κ)
    (now : Time) (e : StoredEntry α) (hb : dbGet s (c.key k) = some (StoredBytes.entry e)) :
    ((c.test s k now).state = State.Expired { expires_at := e.expires_at, value := () } ↔
      e.expires_at < now) ∧
    ((c.test s k now).state = State.Fresh { expires_at := e.expires_at, value := () } ↔
      now ≤ e.expires_at) ∧
    ((c.get s k now).state = State.Expired e ↔ e.expires_at < now) ∧
    ((c.get s k now).state = State.Fresh e ↔ now ≤ e.expires_at) := by
  unfold Cache.test Cache.inner_test Cache.get Cache.inner_get
  rw [hb]
  by_cases h : e.expires_at < now
  · simp [decodePartial, decodeFull, PartialStoredEntry.is_expired, StoredEntry.is_expired,
      PartialStoredEntry.into_stored_entry, EntryRef.fresh, EntryRef.expired, h]
  · simp [decodePartial, decodeFull, PartialStoredEntry.is_expired, StoredEntry.is_expired,
      PartialStoredEntry.into_stored_entry, EntryRef.fresh, EntryRef.expired, h]
    exact Int.not_lt.mp h

/-- Claim C2 witness: a stored entry expiring at `3` read at `now = 5` resolves
to `Expired` under `test`. -/
theorem test_get_expiry_boundary_witness :
    ((Cache.mk none).test
        ([({ ns := none, key := "x" },
            StoredBytes.entry { expires_at := 3, value := (7 : Nat) })] : Store String Nat)
        "x" 5).state = State.Expired { expires_at := 3, value := () } :=
  (test_get_expiry_boundary (Cache.mk none) _ "x" 5
    { expires_at := 3, value := (7 : Nat) } (by decide)).1.mpr (by decide)

/-- Claim C1, counterexample: two concurrent `wrap` calls on a cold key, under
the interleaving where both resolve the key before either computes, each run
the caller-supplied computation (the shared counter reaches `2`, not `1`) and
they return different values (`1` and `2`); the source's `wrap` has no
single-flight coordination. -/
theorem wrap_single_flight_counterexample :
    (wrapRun (Cache.mk none) "k" 100 0 [false, true, false, true]
        { db := ([] : Store String Nat), counter := 0,
          t0 := TaskState.start, t1 := TaskState.start }).counter = 2 ∧
    (wrapRun (Cache.mk none) "k" 100 0 [false, true, false, true]
        { db := ([] : Store String Nat), counter := 0,
          t0 := TaskState.start, t1 := TaskState.start }).t0 = TaskState.finished 1 true ∧
    (wrapRun (Cache.mk none) "k" 100 0 [false, true, false, true]
        { db := ([] : Store String Nat), counter := 0,
          t0 := TaskState.start, t1 := TaskState.start }).t1 = TaskState.finished 2 true := by
  decide

/-- Claim C1 (amended): among concurrent `wrap` calls for a key, the
computation is not deduplicated — it runs once per caller that observed a miss:
under every interleaving of two callers starting from any store, the shared
counter equals the number of finished callers that ran the computation
themselves (and callers may return different values). -/
theorem wrap_compute_runs_once_per_miss_observer [DecidableEq κ] (c : Cache) (k : κ)
    (age : Int) (now : Time) (s : Store κ Nat) (sched : List Bool) :
    (wrapRun c k age now sched
        { db := s, counter := 0, t0 := TaskState.start, t1 := TaskState.start }).counter =
      computeRuns (wrapRun c k age now sched
        { db := s, counter := 0, t0 := TaskState.start, t1 := TaskState.start }) :=
  wrapRun_preserves_runs c k age now sched _ rfl

/-- Claim C3: `wrap` on a `Fresh` key returns the cached value with the store
untouched and independently of the computation's outcome; on a non-`Fresh`
resolution it returns the successful computation's value after persisting it
under the encoded key with `expires_at = now + ttl`. -/
theorem wrap_fresh_returns_cached_miss_persists [DecidableEq κ] (c : Cache)
    (s : Store κ α) (k : κ) (age : Int) (now₁ now₂ : Time) :
    (∀ e : StoredEntry α, (c.get s k now₁).state = State.Fresh e →
      ∀ fut : Except Error α, c.wrap s k age fut now₁ now₂ = (Except.ok e.value, s)) ∧
    ((∀ e : StoredEntry α, (c.get s k now₁).state ≠ State.Fresh e) →
      ∀ v : α, c.wrap s k age (Except.ok v) now₁ now₂ =
          (Except.ok v, Cache.inner_insert s (c.key k) age v now₂) ∧
        dbGet (c.wrap s k age (Except.ok v) now₁ now₂).2 (c.key k) =
          some (StoredBytes.entry { expires_at := now₂ + age, value := v })) := by
  constructor
  · intro e he fut
    unfold Cache.wrap
    rw [he]
  · intro hmiss v
    unfold Cache.wrap
    cases hst : (c.get s k now₁).state with
    | Fresh e => exact absurd hst (hmiss e)
    | Expired e =>
      exact ⟨rfl, dbGet_dbPut_self s (c.key k) _⟩
    | Missing =>
      exact ⟨rfl, dbGet_dbPut_self s (c.key k) _⟩

/-- Claim C3 witness: on an empty store the key is `Missing`, so `wrap` with a
computation returning `5` persists and returns `5`; on the resulting store the
key is `Fresh`, so a second `wrap` returns the cached `5` regardless of the new
computation's outcome. -/
theorem wrap_fresh_returns_cached_miss_persists_witness :
    Cache.wrap (Cache.mk none) ([] : Store String Nat) "k" 10 (Except.ok 5) 0 0 =
      (Except.ok 5, Cache.inner_insert [] (Cache.key (Cache.mk none) "k") 10 5 0) ∧
    Cache.wrap (Cache.mk none)
        (Cache.inner_insert ([] : Store String Nat) (Cache.key (Cache.mk none) "k") 10 5 0)
        "k" 10 (Except.error (Error.Json 3)) 0 0 =
      (Except.ok 5, Cache.inner_insert ([] : Store String Nat)
        (Cache.key (Cache.mk none) "k") 10 5 0) :=
  ⟨((wrap_fresh_returns_cached_miss_persists (Cache.mk none) [] "k" 10 0 0).2
      (by intro e h; simp [Cache.get, Cache.inner_get, dbGet, List.find?,
        EntryRef.missing] at h) 5).1,
    (wrap_fresh_returns_cached_miss_persists (Cache.mk none) _ "k" 10 0 0).1
      { expires_at := 10, value := 5 } (by decide) (Except.error (Error.Json 3))⟩

/-- Claim C4: `wrap` with a failing computation never changes the store, and
whenever the key did not resolve `Fresh` (so the computation actually ran) the
failure is returned verbatim to the caller. -/
theorem wrap_failure_propagates_store_unchanged [DecidableEq κ] (c : Cache)
    (s : Store κ α) (k : κ) (age : Int) (err : Error) (now₁ now₂ : Time) :
    (c.wrap s k age (Except.error err) now₁ now₂).2 = s ∧
    ((∀ e : StoredEntry α, (c.get s k now₁).state ≠ State.Fresh e) →
      (c.wrap s k age (Except.error err) now₁ now₂).1 = Except.error err) := by
  unfold Cache.wrap
  cases hst : (c.get s k now₁).state with
  | Fresh e => exact ⟨rfl, fun hmiss => absurd rfl (hmiss e)⟩
  | Expired e => exact ⟨rfl, fun _ => rfl⟩
  | Missing => exact ⟨rfl, fun _ => rfl⟩

/-- Claim C4 witness: on an empty store (a `Missing` resolution) `wrap` with a
failing computation returns that failure and leaves the store empty. -/
theorem wrap_failure_propagates_store_unchanged_witness :
    (Cache.wrap (Cache.mk none) ([] : Store String Nat) "k" 10
        (Except.error (Error.Rocksdb 9)) 0 0).2 = ([] : Store String Nat) ∧
    (Cache.wrap (Cache.mk none) ([] : Store String Nat) "k" 10
        (Except.error (Error.Rocksdb 9)) 0 0).1 = Except.error (Error.Rocksdb 9) :=
  ⟨(wrap_failure_propagates_store_unchanged (Cache.mk none) [] "k" 10
      (Error.Rocksdb 9) 0 0).1,
    (wrap_failure_propagates_store_unchanged (Cache.mk none) [] "k" 10
      (Error.Rocksdb 9) 0 0).2
      (by intro e h; simp [Cache.get, Cache.inner_get, dbGet, List.find?,
        EntryRef.missing] at h)⟩

/-- Claim C5: when the stored bytes under a key fail the relevant decode — the
header decode for `test`, the typed full decode for `get` — the lookup returns
the `Missing` entry reference; neither function signals an error (both are
total in this model, mirroring the `Ok` returned on the decode-failure paths of
the source). -/
theorem decode_failure_resolves_missing [DecidableEq κ] (c : Cache) (s : Store κ α)
    (k : κ) (now : Time) (b : StoredBytes α) (hb : dbGet s (c.key k) = some b) :
    (decodePartial b = none → c.test s k now = EntryRef.missing (c.key k)) ∧
    (decodeFull b = none → c.get s k now = EntryRef.missing (c.key k)) := by
  constructor
  · intro hd
    unfold Cache.test Cache.inner_test
    rw [hb]
    simp [hd]
  · intro hd
    unfold Cache.get Cache.inner_get
    rw [hb]
    simp [hd]

/-- Claim C5 witness: malformed bytes resolve to `Missing` under `test`, and
bytes whose header decodes but whose payload does not resolve to `Missing`
under `get`. -/
theorem decode_failure_resolves_missing_witness :
    Cache.test (Cache.mk none)
        ([({ ns := none, key := "x" }, StoredBytes.malformed 0)] : Store String Nat)
        "x" 0 = EntryRef.missing (Cache.key (Cache.mk none) "x") ∧
    Cache.get (Cache.mk none)
        ([({ ns := none, key := "y" }, StoredBytes.badPayload 99 1)] : Store String Nat)
        "y" 0 = EntryRef.missing (Cache.key (Cache.mk none) "y") :=
  ⟨(decode_failure_resolves_missing (Cache.mk none) _ "x" 0
      (StoredBytes.malformed 0) (by decide)).1 rfl,
    (decode_failure_resolves_missing (Cache.mk none) _ "y" 0
      (StoredBytes.badPayload 99 1) (by decide)).2 rfl⟩

/-- Claim C6: inserting a value with a positive ttl and immediately reading the
same key back (at the same clock reading) yields a `Fresh` entry reference
holding that value, with `expires_at = now + ttl`. -/
theorem insert_then_get_fresh [DecidableEq κ] (c : Cache) (s : Store κ α) (k : κ)
    (ttl : Int) (v : α) (now : Time) (h : 0 < ttl) :
    c.get (c.insert s k ttl v now) k now =
      EntryRef.fresh (c.key k) { expires_at := now + ttl, value := v } := by
  unfold Cache.get Cache.inner_get Cache.insert
  rw [show Cache.inner_insert s (c.key k) ttl v now =
      dbPut s (c.key k) (StoredBytes.entry { expires_at := now + ttl, value := v }) from rfl,
    dbGet_dbPut_self]
  have hexp : StoredEntry.is_expired { expires_at := now + ttl, value := v } now = false := by
    show decide (now + ttl < now) = false
    exact decide_eq_false (Int.not_lt.mpr (le_add_of_nonneg_right (le_of_lt h)))
  simp [decodeFull, hexp]

/-- Claim C6 witness: inserting `7` under `"x"` with ttl `10` at time `0` and
reading it back at time `0` yields `Fresh` with value `7` expiring at `10`. -/
theorem insert_then_get_fresh_witness :
    Cache.get (Cache.mk none)
        (Cache.insert (Cache.mk none) ([] : Store String Nat) "x" 10 7 0) "x" 0 =
      EntryRef.fresh (Cache.key (Cache.mk none) "x") { expires_at := 10, value := 7 } :=
  insert_then_get_fresh (Cache.mk none) [] "x" 10 7 0 (by decide)

/-- Claim C7: an entry survives `cleanup` exactly when it was in the store, its
header decodes, and it is not expired — so undecodable and expired entries are
deleted and every decodable fresh entry is kept unchanged. -/
theorem cleanup_keeps_exactly_fresh_decodable [DecidableEq κ] (s : Store κ α)
    (now : Time) (p : EncKey κ × StoredBytes α) :
    p ∈ Cache.cleanup s now ↔
      p ∈ s ∧ ∃ e, decodePartial p.2 = some e ∧ e.is_expired now = false := by
  unfold Cache.cleanup
  rw [List.mem_filter]
  cases hd : decodePartial p.2 with
  | none => simp [hd]
  | some e => simp [hd]

/-- Claim C8: `delete_if_expired` on a `Fresh` reference returns the value with
the store untouched; on an `Expired` reference it returns absence, the entry is
gone, and every other key is untouched; on a `Missing` reference it returns
absence with the store untouched. -/
theorem delete_if_expired_cases [DecidableEq κ] (s : Store κ α) (er : EntryRef κ α) :
    (∀ e, er.state = State.Fresh e →
      EntryRef.delete_if_expired s er = (some e.value, s)) ∧
    (∀ e, er.state = State.Expired e →
      (EntryRef.delete_if_expired s er).1 = none ∧
      dbGet (EntryRef.delete_if_expired s er).2 er.key = none ∧
      ∀ k', k' ≠ er.key →
        dbGet (EntryRef.delete_if_expired s er).2 k' = dbGet s k') ∧
    (er.state = State.Missing → EntryRef.delete_if_expired s er = (none, s)) := by
  unfold EntryRef.delete_if_expired
  cases hst : er.state with
  | Fresh e =>
    refine ⟨fun e' he' => ?_, fun e' he' => ?_, fun he' => ?_⟩
    · cases he'
      rfl
    · exact absurd he' (by simp)
    · exact absurd he' (by simp)
  | Expired e =>
    refine ⟨fun e' he' => absurd he' (by simp), fun e' he' => ?_,
      fun he' => absurd he' (by simp)⟩
    exact ⟨rfl, dbGet_dbDelete_self s er.key,
      fun k' hk' => dbGet_dbDelete_other s er.key k' hk'⟩
  | Missing =>
    refine ⟨fun e' he' => absurd he' (by simp), fun e' he' => absurd he' (by simp),
      fun _ => rfl⟩

/-- Claim C8 witness: on a one-entry store, an `Expired` reference to that
entry deletes it (the key reads back as nothing) and returns absence, and a
`Missing` reference leaves the store unchanged. -/
theorem delete_if_expired_cases_witness :
    (EntryRef.delete_if_expired
        ([({ ns := none, key := "x" },
            StoredBytes.entry { expires_at := 0, value := (1 : Nat) })] : Store String Nat)
        (EntryRef.expired { ns := none, key := "x" }
          { expires_at := 0, value := (1 : Nat) })).1 = none ∧
    dbGet (EntryRef.delete_if_expired
        ([({ ns := none, key := "x" },
            StoredBytes.entry { expires_at := 0, value := (1 : Nat) })] : Store String Nat)
        (EntryRef.expired { ns := none, key := "x" }
          { expires_at := 0, value := (1 : Nat) })).2
      { ns := none, key := "x" } = none :=
  ⟨((delete_if_expired_cases _ _).2.1 { expires_at := 0, value := (1 : Nat) } rfl).1,
    ((delete_if_expired_cases _ _).2.1 { expires_at := 0, value := (1 : Nat) } rfl).2.1⟩

/-- Claim C9: distinct namespaces never produce colliding encoded keys, so an
insert through one namespaced instance is invisible to a `get` through a
differently-namespaced instance, even for byte-identical logical keys. -/
theorem namespaces_never_collide [DecidableEq κ] (c : Cache) (s : Store κ α)
    (a b : String) (k₁ k₂ : κ) (ttl : Int) (v : α) (now now' : Time) (hab : a ≠ b) :
    (c.namespaced a).key k₁ ≠ (c.namespaced b).key k₂ ∧
    (c.namespaced b).get ((c.namespaced a).insert s k₁ ttl v now) k₂ now' =
      (c.namespaced b).get s k₂ now' := by
  have hkey : ((c.namespaced b).key k₂ : EncKey κ) ≠ (c.namespaced a).key k₁ := by
    intro hh
    exact hab (Option.some.inj (congrArg EncKey.ns hh)).symm
  constructor
  · exact fun hh => hkey hh.symm
  · unfold Cache.get Cache.inner_get Cache.insert
    rw [show Cache.inner_insert s ((c.namespaced a).key k₁) ttl v now =
        dbPut s ((c.namespaced a).key k₁)
          (StoredBytes.entry { expires_at := now + ttl, value := v }) from rfl,
      dbGet_dbPut_other s ((c.namespaced a).key k₁) ((c.namespaced b).key k₂) _ hkey]

/-- Claim C9 witness: with namespaces `"a"` and `"b"` over logical key `"x"`,
the encoded keys differ and a `get` through `"b"` after an insert through `"a"`
still sees the empty store. -/
theorem namespaces_never_collide_witness :
    ((Cache.mk none).namespaced "a").key "x" ≠ ((Cache.mk none).namespaced "b").key "x" ∧
    ((Cache.mk none).namespaced "b").get
        (((Cache.mk none).namespaced "a").insert ([] : Store String Nat) "x" 10 (7 : Nat) 0)
        "x" 0 =
      ((Cache.mk none).namespaced "b").get ([] : Store String Nat) "x" 0 :=
  ⟨(namespaces_never_collide (Cache.mk none) [] "a" "b" "x" "x" 10 7 0 0
      (by decide)).1,
    (namespaces_never_collide (Cache.mk none) [] "a" "b" "x" "x" 10 7 0 0
      (by decide)).2⟩

/-- Claim C10: the read path never writes — the state-passing forms of
`inner_test` and `inner_get` hand back the store they received (so every key's
bytes are unchanged, even when the entry is expired or undecodable), and their
results agree with the direct definitions. -/
theorem reads_leave_store_unchanged [DecidableEq κ] (s : Store κ α) (key : EncKey κ)
    (now : Time) :
    (Cache.inner_testS s key now).2 = s ∧
    (Cache.inner_getS s key now).2 = s ∧
    (Cache.inner_testS s key now).1 = Cache.inner_test s key now ∧
    (Cache.inner_getS s key now).1 = Cache.inner_get s key now := by
  unfold Cache.inner_testS Cache.inner_getS Cache.inner_test Cache.inner_get
  refine ⟨?_, ?_, ?_, ?_⟩ <;>
  · repeat' split
    all_goals rfl
